import Mathlib

/-!
Verification of the crawler/pipeline repository (lab_5_scrapper/scrapper.py and
lab_6_pipeline/pipeline.py) against its natural-language specification.

The Python source is shallowly embedded: pure functions become Lean functions,
Python dynamic values become an explicit `PyVal` type, the filesystem and the
HTML/HTTP collaborators become explicit input data.  Machine-level details that
the source never exercises (full Unicode case tables, non-ASCII digits) are
embedded for the character ranges the program actually works with: ASCII and
the Cyrillic block used by the Russian month names.
-/

/-! ## Python character/string primitives (lower, strip, split, isdigit, isalnum) -/

/-- Python whitespace characters as used by str.split()/str.strip():
space, tab, newline, vertical tab, form feed, carriage return. -/
def pyIsWs (c : Char) : Bool :=
  decide (c.toNat = 32 ∨ c.toNat = 9 ∨ c.toNat = 10 ∨ c.toNat = 11 ∨ c.toNat = 12 ∨ c.toNat = 13)

/-- Python str.lower() restricted to the ranges the program meets:
ASCII A-Z and the Cyrillic range А-Я plus Ё. -/
def pyLowerChar (c : Char) : Char :=
  if 65 ≤ c.toNat ∧ c.toNat ≤ 90 then Char.ofNat (c.toNat + 32)
  else if 0x410 ≤ c.toNat ∧ c.toNat ≤ 0x42F then Char.ofNat (c.toNat + 0x20)
  else if c.toNat = 0x401 then Char.ofNat 0x451
  else c

/-- Python str.lower() on a whole string. -/
def pyLower (s : String) : String := ⟨s.data.map pyLowerChar⟩

/-- ASCII decimal digit test (Python str.isdigit for the ASCII digits the
program produces). -/
def isDigitChar (c : Char) : Bool := decide (48 ≤ c.toNat ∧ c.toNat ≤ 57)

/-- Python str.isdigit(): non-empty and every character a digit. -/
def pyIsDigitStr (s : String) : Bool := !s.data.isEmpty && s.data.all isDigitChar

/-- Python str.isalnum() restricted to ASCII digits/letters and the Cyrillic
letters (the character classes the articles contain). -/
def pyIsAlnumChar (c : Char) : Bool :=
  decide ((48 ≤ c.toNat ∧ c.toNat ≤ 57) ∨ (65 ≤ c.toNat ∧ c.toNat ≤ 90) ∨
    (97 ≤ c.toNat ∧ c.toNat ≤ 122) ∨ (0x410 ≤ c.toNat ∧ c.toNat ≤ 0x44F) ∨
    c.toNat = 0x401 ∨ c.toNat = 0x451)

/-- Strip leading and trailing Python whitespace from a character list. -/
def stripL (l : List Char) : List Char :=
  ((l.dropWhile pyIsWs).reverse.dropWhile pyIsWs).reverse

/-- Python str.strip(). -/
def pyStrip (s : String) : String := ⟨stripL s.data⟩

/-- Group a character list into maximal runs separated by whitespace;
whitespace starts a new (possibly empty) group. -/
def splitWsGroups (l : List Char) : List (List Char) :=
  l.foldr (fun c acc =>
    if pyIsWs c then [] :: acc
    else match acc with
         | [] => [[c]]
         | g :: gs => (c :: g) :: gs) [[]]

/-- Python str.split() with no argument: split on whitespace runs and drop
empty pieces. -/
def pyTokens (s : String) : List String :=
  ((splitWsGroups s.data).filter (fun g => !g.isEmpty)).map String.mk

/-- Python substring membership for a single character (the `':' in element`
test). -/
def pyContains (s : String) (c : Char) : Bool := s.data.contains c

/-- Python s[:2] (used for day[:2]). -/
def sliceTwo (s : String) : String := ⟨s.data.take 2⟩

/-- Python ' '.join(parts). -/
def joinSpaceL : List (List Char) → List Char
  | [] => []
  | [p] => p
  | p :: q :: ps => p ++ ' ' :: joinSpaceL (q :: ps)

/-- Python ' '.join on strings. -/
def joinSpace (parts : List String) : String := ⟨joinSpaceL (parts.map String.data)⟩

/-! ## lab_5_scrapper: Config validation (Config._validate_config_content)

A loaded JSON configuration is a record of dynamically typed Python values. -/

/-- Dynamically typed Python/JSON value as `Config._validate_config_content`
inspects it with isinstance checks.  Python bool is a subclass of int, so
`pyIsInt` is true of `pyBool` as well. -/
inductive PyVal where
  | pyInt : Int → PyVal
  | pyBool : Bool → PyVal
  | pyStr : String → PyVal
  | pyList : List PyVal → PyVal
  | pyDict : List (String × PyVal) → PyVal
  | pyNone : PyVal

/-- isinstance(x, int) — true for Python bools too. -/
def pyIsInt : PyVal → Bool
  | .pyInt _ => true
  | .pyBool _ => true
  | _ => false

/-- isinstance(x, bool). -/
def pyIsBool : PyVal → Bool
  | .pyBool _ => true
  | _ => false

/-- isinstance(x, str). -/
def pyIsStr : PyVal → Bool
  | .pyStr _ => true
  | _ => false

/-- isinstance(x, list). -/
def pyIsList : PyVal → Bool
  | .pyList _ => true
  | _ => false

/-- isinstance(x, dict). -/
def pyIsDict : PyVal → Bool
  | .pyDict _ => true
  | _ => false

/-- Numeric value of a Python int-like value (bool counts as 0/1); only used
behind a `pyIsInt` guard, the default 0 is never reached by the validator. -/
def pyToInt : PyVal → Int
  | .pyInt n => n
  | .pyBool b => if b then 1 else 0
  | _ => 0

/-- The seed-URL pattern re.match(r"https?://.*/", url): the string starts
with "http", optionally "s", then "://", and some later "/" occurs before any
newline (regex "." does not match a newline). -/
def tailHasSlash : List Char → Bool
  | [] => false
  | c :: cs => if c = '\n' then false else if c = '/' then true else tailHasSlash cs

/-- Scheme separator "://" of the seed-URL pattern. -/
def afterSepSlash : List Char → Option (List Char)
  | ':' :: '/' :: '/' :: r => some r
  | _ => none

/-- re.match(r"https?://.*/", url) as a Boolean on the character list. -/
def matchHttp : List Char → Bool
  | 'h' :: 't' :: 't' :: 'p' :: rest =>
    (match rest with
     | 's' :: r2 =>
       (match afterSepSlash r2 with
        | some r3 => tailHasSlash r3
        | none =>
          match afterSepSlash rest with
          | some r3 => tailHasSlash r3
          | none => false)
     | _ =>
       match afterSepSlash rest with
       | some r3 => tailHasSlash r3
       | none => false)
  | _ => false

/-- re.match(r"https?://.*/", url) on a string. -/
def seedUrlMatch (s : String) : Bool := matchHttp s.data

/-- Every list element is a string matching the seed URL pattern (the loop in
`_validate_config_content`); false on a non-list. -/
def seedListOk : PyVal → Bool
  | .pyList xs => xs.all (fun u => match u with
      | .pyStr s => seedUrlMatch s
      | _ => false)
  | _ => false

/-- The seven-field configuration payload (ConfigDTO) exactly as the validator
reads it. -/
structure ConfigDTO where
  seedUrls : PyVal
  totalArticles : PyVal
  headers : PyVal
  encoding : PyVal
  timeout : PyVal
  shouldVerifyCertificate : PyVal
  headlessMode : PyVal

/-- External bound constants NUM_ARTICLES_UPPER_LIMIT, TIMEOUT_LOWER_LIMIT,
TIMEOUT_UPPER_LIMIT injected from core_utils.constants. -/
structure Limits where
  numArticlesUpperLimit : Int
  timeoutLowerLimit : Int
  timeoutUpperLimit : Int
deriving DecidableEq

/-- The distinct error kinds raised by `Config._validate_config_content`. -/
inductive ConfigError where
  | incorrectSeedURL
  | numberOfArticlesOutOfRange
  | incorrectNumberOfArticles
  | incorrectHeaders
  | incorrectEncoding
  | incorrectTimeout
  | incorrectVerify
deriving DecidableEq

/-- Config._validate_config_content (scrapper.py lines 92-126), transcribed
check for check in source order; the first failing check raises. -/
def Config.validateConfigContent (lim : Limits) (dto : ConfigDTO) : Except ConfigError Unit :=
  if !pyIsList dto.seedUrls then .error .incorrectSeedURL
  else if !seedListOk dto.seedUrls then .error .incorrectSeedURL
  else if !pyIsInt dto.totalArticles || pyIsBool dto.totalArticles
          || decide (pyToInt dto.totalArticles < 1) then .error .incorrectNumberOfArticles
  else if decide (lim.numArticlesUpperLimit < pyToInt dto.totalArticles) then
    .error .numberOfArticlesOutOfRange
  else if !pyIsDict dto.headers then .error .incorrectHeaders
  else if !pyIsStr dto.encoding then .error .incorrectEncoding
  else if !pyIsInt dto.timeout || decide (pyToInt dto.timeout < lim.timeoutLowerLimit)
          || decide (lim.timeoutUpperLimit < pyToInt dto.timeout) then .error .incorrectTimeout
  else if !pyIsBool dto.shouldVerifyCertificate || !pyIsBool dto.headlessMode then
    .error .incorrectVerify
  else .ok ()

/-- Declarative reading of the seed-URL check: a list whose members are all
pattern-matching strings. -/
def seedsOkP (dto : ConfigDTO) : Prop :=
  ∃ xs, dto.seedUrls = .pyList xs ∧ ∀ u ∈ xs, ∃ s, u = .pyStr s ∧ seedUrlMatch s = true

/-- Declarative reading of a well-formed article count: a non-boolean integer
that is at least 1. -/
def countOkP (dto : ConfigDTO) : Prop :=
  ∃ n : Int, dto.totalArticles = .pyInt n ∧ 1 ≤ n

/-- Declarative reading of the upper-bound check on the article count. -/
def rangeOkP (lim : Limits) (dto : ConfigDTO) : Prop :=
  ∀ n : Int, dto.totalArticles = .pyInt n → n ≤ lim.numArticlesUpperLimit

/-- Declarative reading of the headers check: a dictionary. -/
def headersOkP (dto : ConfigDTO) : Prop := ∃ m, dto.headers = .pyDict m

/-- Declarative reading of the encoding check: a string. -/
def encodingOkP (dto : ConfigDTO) : Prop := ∃ s, dto.encoding = .pyStr s

/-- Declarative reading of the timeout check: an int (Python bool included,
as in the source) within the inclusive bounds. -/
def timeoutOkP (lim : Limits) (dto : ConfigDTO) : Prop :=
  pyIsInt dto.timeout = true ∧ lim.timeoutLowerLimit ≤ pyToInt dto.timeout ∧
    pyToInt dto.timeout ≤ lim.timeoutUpperLimit

/-- Declarative reading of the certificate/headless flag check. -/
def flagsOkP (dto : ConfigDTO) : Prop :=
  pyIsBool dto.shouldVerifyCertificate = true ∧ pyIsBool dto.headlessMode = true

/-! ## lab_5_scrapper: Crawler (find_articles, _extract_url)

The fetch+parse collaborators are abstracted away: each seed page is given as
the list of href attributes (None when absent) of its matching anchor
elements, in document order. -/

/-- Crawler._extract_url (scrapper.py lines 196-202): the href attribute when
it is a string, the sentinel otherwise. -/
def Crawler.extractUrl (href : Option String) : String :=
  match href with
  | some s => s
  | none => "url not found"

/-- The inner anchor loop of Crawler.find_articles (scrapper.py lines
211-217) over one seed page; the Bool records whether the early return
(bound reached) fired, which aborts the whole method. -/
def Crawler.processAnchors (num : Nat) : List (Option String) → List String → List String × Bool
  | [], urls => (urls, false)
  | a :: rest, urls =>
    if num ≤ urls.length then (urls, true)
    else
      let url := Crawler.extractUrl a
      if url = "" || urls.contains url || url = "url not found" then
        Crawler.processAnchors num rest urls
      else
        Crawler.processAnchors num rest (urls ++ ["https://krsk.sibnovosti.ru" ++ url])

/-- The outer seed loop of Crawler.find_articles (scrapper.py lines 204-217):
self.urls is threaded through the seeds; a fired early return stops the
remaining seeds. -/
def Crawler.findArticlesAux (num : Nat) : List (List (Option String)) → List String → List String
  | [], urls => urls
  | seed :: rest, urls =>
    match Crawler.processAnchors num seed urls with
    | (urls2, true) => urls2
    | (urls2, false) => Crawler.findArticlesAux num rest urls2

/-- Crawler.find_articles starting from the empty self.urls set up in
Crawler.__init__. -/
def Crawler.findArticles (num : Nat) (seeds : List (List (Option String))) : List String :=
  Crawler.findArticlesAux num seeds []

/-! ## lab_5_scrapper: HTMLParser author step -/

/-- The author branch of HTMLParser._fill_article_with_meta_information
(scrapper.py lines 253-257), as a function of the byline element text:
an empty text (falsy in Python) yields the sentinel list, any other text is
stored as a one-element list, unmodified. -/
def HTMLParser.fillAuthor (bylineText : String) : List String :=
  if bylineText = "" then ["NOT FOUND"] else [bylineText]

/-! ## lab_5_scrapper: HTMLParser.unify_date_format -/

/-- The months_collection dictionary of unify_date_format. -/
def monthsCollection : List (String × String) :=
  [("января", "01"), ("февраля", "02"), ("марта", "03"),
   ("апреля", "04"), ("мая", "05"), ("июня", "06"),
   ("июля", "07"), ("августа", "08"), ("сентября", "09"),
   ("октября", "10"), ("ноября", "11"), ("декабря", "12")]

/-- Dictionary lookup months_collection[element]; None models a missing key. -/
def monthsLookup (e : String) : Option String :=
  (monthsCollection.find? (fun p => p.1 == e)).map Prod.snd

/-- The digits list ['1'..'9'] of unify_date_format. -/
def singleDigits : List String := ["1", "2", "3", "4", "5", "6", "7", "8", "9"]

/-- Per-token contribution to the time accumulator (time += element when ':'
in element). -/
def timeAdd (e : String) : String := if pyContains e ':' then e else ""

/-- Per-token contribution to the month accumulator (month +=
months_collection[element] when present). -/
def monthAdd (e : String) : String :=
  match monthsLookup e with
  | some m => m
  | none => ""

/-- Per-token contribution to the day accumulator: a single digit 1-9 is
zero-padded, any other all-digit token is appended as is. -/
def dayAdd (e : String) : String :=
  if pyIsDigitStr e && singleDigits.contains e then "0" ++ e
  else if pyIsDigitStr e && !singleDigits.contains e then e
  else ""

/-- One iteration of the classification loop of unify_date_format (scrapper.py
lines 278-287) on accumulator (time, month, day). -/
def dateStep (acc : String × String × String) (e : String) : String × String × String :=
  (acc.1 ++ timeAdd e, acc.2.1 ++ monthAdd e, acc.2.2 ++ dayAdd e)

/-- The (time, month, day) accumulators after the loop of unify_date_format:
tokens of the lowercased input folded through dateStep. -/
def dateParts (dateStr : String) : String × String × String :=
  (pyTokens (pyLower dateStr)).foldl dateStep ("", "", "")

/-- The timestamp produced by datetime.strptime(s, "%Y-%m-%d %H:%M"). -/
structure DateTime where
  year : Nat
  month : Nat
  day : Nat
  hour : Nat
  minute : Nat
deriving DecidableEq

/-- Maximal leading run of ASCII digits and the remainder. -/
def digitSpan : List Char → List Char × List Char
  | [] => ([], [])
  | c :: cs =>
    if isDigitChar c then
      let r := digitSpan cs
      (c :: r.1, r.2)
    else ([], c :: cs)

/-- Maximal leading run of whitespace and the remainder (a whitespace in the
format string matches one or more whitespace characters). -/
def wsSpan : List Char → List Char × List Char
  | [] => ([], [])
  | c :: cs =>
    if pyIsWs c then
      let r := wsSpan cs
      (c :: r.1, r.2)
    else ([], c :: cs)

/-- Numeric value of one digit character. -/
def oneDigitNat (a : Char) : Nat := a.toNat - 48

/-- Numeric value of two digit characters. -/
def twoDigitNat (a b : Char) : Nat := (a.toNat - 48) * 10 + (b.toNat - 48)

/-- strptime %m: its regex is 1[0-2]|0[1-9]|[1-9], i.e. one digit 1-9 or two
digits valued 1-12. -/
def monthVal : List Char → Option Nat
  | [a] => if 1 ≤ oneDigitNat a ∧ oneDigitNat a ≤ 9 then some (oneDigitNat a) else none
  | [a, b] => if 1 ≤ twoDigitNat a b ∧ twoDigitNat a b ≤ 12 then some (twoDigitNat a b) else none
  | _ => none

/-- strptime %d: regex 3[01]|[12] digit|0[1-9]|[1-9], i.e. one digit 1-9 or
two digits valued 1-31. -/
def dayVal : List Char → Option Nat
  | [a] => if 1 ≤ oneDigitNat a ∧ oneDigitNat a ≤ 9 then some (oneDigitNat a) else none
  | [a, b] => if 1 ≤ twoDigitNat a b ∧ twoDigitNat a b ≤ 31 then some (twoDigitNat a b) else none
  | _ => none

/-- strptime %H: regex 2[0-3]|[0-1] digit|digit, i.e. one digit or two digits
valued 0-23. -/
def hourVal : List Char → Option Nat
  | [a] => if oneDigitNat a ≤ 9 then some (oneDigitNat a) else none
  | [a, b] => if twoDigitNat a b ≤ 23 then some (twoDigitNat a b) else none
  | _ => none

/-- strptime %M: regex [0-5] digit|digit, i.e. one digit or two digits valued
0-59. -/
def minuteVal : List Char → Option Nat
  | [a] => if oneDigitNat a ≤ 9 then some (oneDigitNat a) else none
  | [a, b] => if twoDigitNat a b ≤ 59 then some (twoDigitNat a b) else none
  | _ => none

/-- Gregorian leap year, used by the datetime constructor when validating the
day of the month. -/
def isLeapYear (y : Nat) : Bool := y % 4 == 0 && (y % 100 != 0 || y % 400 == 0)

/-- Days in a month, as validated by the datetime constructor. -/
def daysInMonth (y m : Nat) : Nat :=
  if m = 2 then (if isLeapYear y then 29 else 28)
  else if m = 4 ∨ m = 6 ∨ m = 9 ∨ m = 11 then 30
  else 31

/-- Parsing of "-%m-%d %H:%M" after the year: month digits, literal '-', day
digits, whitespace, hour digits, literal ':', minute digits, end of input;
then the datetime constructor checks year at least 1 and the day against the
month length. -/
def parseAfterYear (y : Nat) (cs : List Char) : Option DateTime :=
  let ms := digitSpan cs
  match monthVal ms.1 with
  | none => none
  | some m =>
    match ms.2 with
    | '-' :: cs2 =>
      let ds := digitSpan cs2
      match dayVal ds.1 with
      | none => none
      | some d =>
        let ws := wsSpan ds.2
        if ws.1.isEmpty then none
        else
          let hs := digitSpan ws.2
          match hourVal hs.1 with
          | none => none
          | some hh =>
            match hs.2 with
            | ':' :: cs3 =>
              let mns := digitSpan cs3
              match minuteVal mns.1 with
              | none => none
              | some mn =>
                if mns.2.isEmpty = true ∧ 1 ≤ y ∧ d ≤ daysInMonth y m then
                  some ⟨y, m, d, hh, mn⟩
                else none
            | _ => none
    | _ => none

/-- datetime.strptime(s, "%Y-%m-%d %H:%M") on a character list: %Y is exactly
four digits, then the literal '-' and the rest of the format. -/
def parseYmdHM : List Char → Option DateTime
  | a :: b :: c :: d :: '-' :: rest =>
    if isDigitChar a && isDigitChar b && isDigitChar c && isDigitChar d then
      parseAfterYear (((oneDigitNat a * 10 + oneDigitNat b) * 10 + oneDigitNat c) * 10
        + oneDigitNat d) rest
    else none
  | _ => none

/-- datetime.strptime(s, "%Y-%m-%d %H:%M"): None models the ValueError on a
failed parse. -/
def strptimeYmdHM (s : String) : Option DateTime := parseYmdHM s.data

/-- HTMLParser.unify_date_format (scrapper.py lines 264-290): lowercase and
split the input, classify tokens into the time/month/day accumulators, then
assemble year-month-day hour:minute with the fixed year and day[:2], and
parse it strictly. -/
def HTMLParser.unifyDateFormat (dateStr : String) : Option DateTime :=
  let year := "2023"
  let acc := dateParts dateStr
  let correctDate := year ++ "-" ++ acc.2.1 ++ "-" ++ sliceTwo acc.2.2 ++ " " ++ acc.1
  strptimeYmdHM correctDate

/-! ## lab_6_pipeline: CorpusManager -/

/-- The error kinds of CorpusManager._validate_dataset. -/
inductive CorpusError where
  | fileNotFound
  | notADirectory
  | emptyDirectory
  | inconsistentDataset
deriving DecidableEq

/-- One file matching the raw-file naming convention N_raw.txt: the numeric ID
parsed from the name and the file size in bytes. -/
structure RawFile where
  id : Nat
  size : Nat
deriving DecidableEq

/-- The directory handed to CorpusManager: existence and kind of the path,
the files matching the glob pattern for raw texts, and the count of the other
directory entries (meta files and the like), which only the emptiness check
sees. -/
structure Directory where
  present : Bool
  isDir : Bool
  rawFiles : List RawFile
  otherEntries : Nat
deriving DecidableEq

/-- CorpusManager._validate_dataset (pipeline.py lines 38-54): path checks,
emptiness check, zero-size check over raw files, then the sorted-ID check
against the contiguous range 1..N. -/
def CorpusManager.validateDataset (d : Directory) : Except CorpusError Unit :=
  if !d.present then .error .fileNotFound
  else if !d.isDir then .error .notADirectory
  else if d.rawFiles.isEmpty && d.otherEntries == 0 then .error .emptyDirectory
  else if d.rawFiles.any (fun f => f.size == 0) then .error .inconsistentDataset
  else if (d.rawFiles.map RawFile.id).insertionSort (· ≤ ·) ≠
      List.range' 1 d.rawFiles.length then .error .inconsistentDataset
  else .ok ()

/-- CorpusManager._scan_dataset (pipeline.py lines 56-63): loading each raw
file registers its article under the ID that from_raw reads back from the
filename; the dict-update keeps one entry per key, so the storage keys are
the distinct IDs in scan order. -/
def CorpusManager.scanKeys (files : List RawFile) : List Nat :=
  files.foldl (fun ks f => if f.id ∈ ks then ks else ks ++ [f.id]) []

/-! ## lab_6_pipeline: ConlluToken, ConlluSentence, MorphologicalAnalysisPipeline -/

/-- ConlluToken: the surface text handed to the constructor. -/
structure ConlluToken where
  text : String

/-- ConlluToken.get_cleaned (pipeline.py lines 110-118): lowercase, strip,
keep alphanumeric characters only. -/
def ConlluToken.getCleaned (tok : ConlluToken) : String :=
  ⟨(stripL (tok.text.data.map pyLowerChar)).filter pyIsAlnumChar⟩

/-- ConlluSentence: position, original text, tokens. -/
structure ConlluSentence where
  position : Nat
  text : String
  tokens : List ConlluToken

/-- ConlluSentence.get_tokens. -/
def ConlluSentence.getTokens (s : ConlluSentence) : List ConlluToken := s.tokens

/-- ConlluSentence.get_conllu_text (pipeline.py lines 134-142): the cleaned,
stripped token forms with the empty ones dropped, space-joined and stripped;
the include_morphological_tags flag is not consulted. -/
def ConlluSentence.getConlluText (s : ConlluSentence) (includeMorphologicalTags : Bool) : String :=
  pyStrip (joinSpace (((s.getTokens.map (fun tok => pyStrip tok.getCleaned)).filter
    (fun c => 0 < c.length))))

/-- ConlluSentence.get_cleaned_sentence (pipeline.py lines 144-152): same
loop, join and strip as get_conllu_text. -/
def ConlluSentence.getCleanedSentence (s : ConlluSentence) : String :=
  pyStrip (joinSpace (((s.getTokens.map (fun tok => pyStrip tok.getCleaned)).filter
    (fun c => 0 < c.length))))

/-- MorphologicalAnalysisPipeline._process (pipeline.py lines 204-213) after
the external split_by_sentence collaborator has produced the sentence list:
each sentence gets position sentences.index(sentence) + 1 (the first index of
an equal string) and its whitespace-split, stripped tokens. -/
def MorphologicalAnalysisPipeline.processSentences (sentences : List String) : List ConlluSentence :=
  sentences.map (fun sentence =>
    ⟨sentences.indexOf sentence + 1, sentence, (pyTokens sentence).map (fun w => ⟨pyStrip w⟩)⟩)

/-- Concatenated per-token contributions of one accumulator of the
unify_date_format loop. -/
def foldAdds (f : String → String) : List String → String
  | [] => ""
  | e :: es => f e ++ foldAdds f es

/-! ## Helper lemmas -/

theorem string_data_append (a b : String) : (a ++ b).data = a.data ++ b.data := rfl

theorem string_append_assoc (a b c : String) : a ++ b ++ c = a ++ (b ++ c) := by
  cases a with
  | mk la =>
    cases b with
    | mk lb =>
      cases c with
      | mk lc =>
        show String.mk ((la ++ lb) ++ lc) = String.mk (la ++ (lb ++ lc))
        rw [List.append_assoc]

theorem string_append_empty (a : String) : a ++ "" = a := by
  cases a with
  | mk la =>
    show String.mk (la ++ []) = String.mk la
    rw [List.append_nil]

theorem string_empty_append (a : String) : "" ++ a = a := rfl

theorem processAnchors_nil (num : Nat) (urls : List String) :
    Crawler.processAnchors num [] urls = (urls, false) := rfl

theorem processAnchors_stop (num : Nat) (a : Option String) (rest : List (Option String))
    (urls : List String) (h : num ≤ urls.length) :
    Crawler.processAnchors num (a :: rest) urls = (urls, true) := by
  simp [Crawler.processAnchors, h]

theorem processAnchors_length_le (num : Nat) (anchors : List (Option String))
    (urls : List String) (h : urls.length ≤ num) :
    (Crawler.processAnchors num anchors urls).1.length ≤ num := by
  induction anchors generalizing urls with
  | nil => simpa [Crawler.processAnchors] using h
  | cons a rest ih =>
    rw [Crawler.processAnchors]
    split
    · exact h
    · dsimp only
      split
      · exact ih urls h
      · refine ih _ ?_
        have hlt : urls.length < num := Nat.lt_of_not_le (by assumption)
        simp only [List.length_append, List.length_cons, List.length_nil]
        omega

theorem findArticlesAux_length_le (num : Nat) (seeds : List (List (Option String)))
    (urls : List String) (h : urls.length ≤ num) :
    (Crawler.findArticlesAux num seeds urls).length ≤ num := by
  induction seeds generalizing urls with
  | nil => simpa [Crawler.findArticlesAux] using h
  | cons seed rest ih =>
    rw [Crawler.findArticlesAux]
    have hpa := processAnchors_length_le num seed urls h
    rcases hq : Crawler.processAnchors num seed urls with ⟨urls2, stopped⟩
    rw [hq] at hpa
    cases stopped
    · exact ih urls2 hpa
    · exact hpa

theorem findArticlesAux_frozen (num : Nat) (seeds : List (List (Option String)))
    (urls : List String) (h : num ≤ urls.length) :
    Crawler.findArticlesAux num seeds urls = urls := by
  induction seeds with
  | nil => rfl
  | cons seed rest ih =>
    rw [Crawler.findArticlesAux]
    cases seed with
    | nil => rw [processAnchors_nil]; exact ih
    | cons a as => rw [processAnchors_stop num a as urls h]

/-- C8: Crawler.find_articles never accumulates more than the configured
article count: from any state within the bound the final list stays within
the bound, once the bound is reached no seed page appends anything more (the
early return fires on the next candidate and empty seed pages add nothing),
and the full run from the empty list is bounded by the configured count. -/
theorem C8_crawler_bound (num : Nat) (seeds : List (List (Option String)))
    (urls : List String) :
    (urls.length ≤ num → (Crawler.findArticlesAux num seeds urls).length ≤ num) ∧
    (num ≤ urls.length → Crawler.findArticlesAux num seeds urls = urls) ∧
    (Crawler.findArticles num seeds).length ≤ num :=
  ⟨findArticlesAux_length_le num seeds urls, findArticlesAux_frozen num seeds urls,
   findArticlesAux_length_le num seeds [] (Nat.zero_le num)⟩

/-- C8 witness: a concrete run with bound 2 over three candidate links keeps
only two, and a full state is left untouched by a further seed. -/
theorem C8_crawler_bound_witness :
    (Crawler.findArticlesAux 2 [[some "/a", some "/b", some "/c"]] []).length ≤ 2 ∧
    Crawler.findArticlesAux 2 [[some "/z"]] ["x", "y"] = ["x", "y"] ∧
    (Crawler.findArticles 2 [[some "/z"]]).length ≤ 2 :=
  ⟨(C8_crawler_bound 2 [[some "/a", some "/b", some "/c"]] []).1 (by decide),
   (C8_crawler_bound 2 [[some "/z"]] ["x", "y"]).2.1 (by decide),
   (C8_crawler_bound 2 [[some "/z"]] ["x", "y"]).2.2⟩

/-- C2: the dedup test `url in self.urls` compares the raw href against the
stored urls, which already carry the site base glued on; a repeated href on a
seed page therefore passes the test and the same absolute URL is appended
twice. -/
theorem C2_find_articles_duplicate :
    Crawler.findArticles 5 [[some "/a", some "/a"]] =
      ["https://krsk.sibnovosti.ru/a", "https://krsk.sibnovosti.ru/a"] ∧
    ¬ (Crawler.findArticles 5 [[some "/a", some "/a"]]).Nodup := by
  constructor
  · rfl
  · decide

/-- C6: MorphologicalAnalysisPipeline._process assigns each sentence the
position sentences.index(sentence) + 1, the first index of an equal string;
an article whose splitter output repeats a sentence gets position 1 twice
instead of the claimed 1, 2. -/
theorem C6_process_positions_repeat :
    (MorphologicalAnalysisPipeline.processSentences ["Да.", "Да."]).map
      ConlluSentence.position = [1, 1] := by
  decide

/-- C7 counterexample: on the byline text " Ivan " the code stores the text
as is, not the trimmed text the claim describes. -/
theorem C7_fill_author_counterexample :
    HTMLParser.fillAuthor " Ivan " ≠ [pyStrip " Ivan "] := by decide

/-- C7 amended: an empty byline text gives exactly the sentinel list
["NOT FOUND"], any other byline text gives the one-element list holding the
text unmodified (not trimmed), and the author list is never empty. -/
theorem C7_fill_author_amended (bylineText : String) :
    (bylineText = "" → HTMLParser.fillAuthor bylineText = ["NOT FOUND"]) ∧
    (bylineText ≠ "" → HTMLParser.fillAuthor bylineText = [bylineText]) ∧
    HTMLParser.fillAuthor bylineText ≠ [] := by
  refine ⟨fun h => by simp [HTMLParser.fillAuthor, h],
          fun h => by simp [HTMLParser.fillAuthor, h], ?_⟩
  by_cases h : bylineText = "" <;> simp [HTMLParser.fillAuthor, h]

/-- C7 amended witness: the two branches at concrete byline texts. -/
theorem C7_fill_author_amended_witness :
    HTMLParser.fillAuthor "" = ["NOT FOUND"] ∧
    HTMLParser.fillAuthor "Иван Петров" = ["Иван Петров"] ∧
    HTMLParser.fillAuthor "Иван Петров" ≠ [] :=
  ⟨(C7_fill_author_amended "").1 rfl,
   (C7_fill_author_amended "Иван Петров").2.1 (by decide),
   (C7_fill_author_amended "Иван Петров").2.2⟩

/-- C10: get_conllu_text and get_cleaned_sentence have the same body and the
morphological-tags flag is never consulted, so the per-sentence CONLL-U
serialization equals the cleaned sentence for every sentence and both flag
values, and carries no position/lemma/POS/feature columns. -/
theorem C10_conllu_equals_cleaned (s : ConlluSentence) (includeMorphologicalTags : Bool) :
    s.getConlluText includeMorphologicalTags = s.getCleanedSentence := rfl

theorem scanKeys_foldl_length (files : List RawFile) (ks : List Nat)
    (h : ∀ i ∈ files.map RawFile.id, i ∉ ks)
    (hnd : (files.map RawFile.id).Nodup) :
    (files.foldl (fun ks f => if f.id ∈ ks then ks else ks ++ [f.id]) ks).length
      = ks.length + files.length := by
  induction files generalizing ks with
  | nil => simp
  | cons f fs ih =>
    simp only [List.foldl_cons]
    have hni : f.id ∉ ks := h f.id (by simp)
    rw [if_neg hni]
    simp only [List.map_cons, List.nodup_cons] at hnd
    have h2 : ∀ i ∈ fs.map RawFile.id, i ∉ ks ++ [f.id] := by
      intro i hi
      simp only [List.mem_append, List.mem_singleton]
      push_neg
      refine ⟨h i (by simp [hi]), ?_⟩
      rintro rfl
      exact hnd.1 hi
    rw [ih (ks ++ [f.id]) h2 hnd.2]
    simp only [List.length_append, List.length_cons, List.length_nil]
    omega

theorem scanKeys_length_of_nodup (files : List RawFile)
    (hnd : (files.map RawFile.id).Nodup) :
    (CorpusManager.scanKeys files).length = files.length := by
  have := scanKeys_foldl_length files [] (by simp) hnd
  simpa [CorpusManager.scanKeys] using this

/-- C1: CorpusManager validation and loading.  A present directory whose raw
files have exactly the IDs 1..N (the sorted ID list equals the range) and all
non-zero sizes validates successfully and the scan registers exactly N
storage entries; a gap, duplicate or zero-size raw file (in a non-empty
directory) raises InconsistentDatasetError; an empty directory raises
EmptyDirectoryError. -/
theorem C1_corpus_validation (d : Directory) :
    (d.present = true → d.isDir = true → d.rawFiles ≠ [] →
     (∀ f ∈ d.rawFiles, f.size ≠ 0) →
     (d.rawFiles.map RawFile.id).insertionSort (· ≤ ·) = List.range' 1 d.rawFiles.length →
     CorpusManager.validateDataset d = .ok () ∧
       (CorpusManager.scanKeys d.rawFiles).length = d.rawFiles.length) ∧
    (d.present = true → d.isDir = true → (d.rawFiles ≠ [] ∨ d.otherEntries ≠ 0) →
     ((d.rawFiles.map RawFile.id).insertionSort (· ≤ ·) ≠ List.range' 1 d.rawFiles.length ∨
       ∃ f ∈ d.rawFiles, f.size = 0) →
     CorpusManager.validateDataset d = .error .inconsistentDataset) ∧
    (d.present = true → d.isDir = true → d.rawFiles = [] → d.otherEntries = 0 →
     CorpusManager.validateDataset d = .error .emptyDirectory) := by
  refine ⟨?_, ?_, ?_⟩
  · intro h1 h2 hne hsz hsort
    have hnonempty : d.rawFiles.isEmpty = false := by
      cases hraw : d.rawFiles with
      | nil => exact absurd hraw hne
      | cons f fs => rfl
    have hany : d.rawFiles.any (fun f => f.size == 0) = false := by
      rw [List.any_eq_false]
      intro f hf
      simpa using hsz f hf
    constructor
    · simp [CorpusManager.validateDataset, h1, h2, hnonempty, hany, hsort]
    · have hperm : List.Perm ((d.rawFiles.map RawFile.id).insertionSort (· ≤ ·))
          (d.rawFiles.map RawFile.id) := List.perm_insertionSort _ _
      rw [hsort] at hperm
      exact scanKeys_length_of_nodup d.rawFiles (hperm.nodup (List.nodup_range' _ _))
  · intro h1 h2 hne hbad
    have hnonempty : (d.rawFiles.isEmpty && d.otherEntries == 0) = false := by
      rcases hne with hraw | hoe
      · cases hraw2 : d.rawFiles with
        | nil => exact absurd hraw2 hraw
        | cons f fs => rfl
      · simp [hoe]
    rcases hbad with hsort | ⟨f, hf, hz⟩
    · by_cases hany : d.rawFiles.any (fun f => f.size == 0) = true
      · simp [CorpusManager.validateDataset, h1, h2, hnonempty, hany]
      · simp [CorpusManager.validateDataset, h1, h2, hnonempty,
          Bool.eq_false_iff.mpr hany, hsort]
    · have hany : d.rawFiles.any (fun f => f.size == 0) = true := by
        rw [List.any_eq_true]
        exact ⟨f, hf, by simp [hz]⟩
      simp [CorpusManager.validateDataset, h1, h2, hnonempty, hany]
  · intro h1 h2 hraw hoe
    simp [CorpusManager.validateDataset, h1, h2, hraw, hoe]

/-- C1 witness: three concrete directories, one per scenario of the claim:
IDs 1,2,3 with positive sizes validate and load 3 records; IDs 1,2,4 are
inconsistent; an empty directory is empty. -/
theorem C1_corpus_validation_witness :
    (CorpusManager.validateDataset ⟨true, true, [⟨1, 5⟩, ⟨2, 3⟩, ⟨3, 1⟩], 3⟩ = .ok () ∧
      (CorpusManager.scanKeys [⟨1, 5⟩, ⟨2, 3⟩, ⟨3, 1⟩]).length = 3) ∧
    CorpusManager.validateDataset ⟨true, true, [⟨1, 5⟩, ⟨2, 3⟩, ⟨4, 1⟩], 3⟩ =
      .error .inconsistentDataset ∧
    CorpusManager.validateDataset ⟨true, true, [], 0⟩ = .error .emptyDirectory := by
  refine ⟨?_, ?_, ?_⟩
  · exact (C1_corpus_validation ⟨true, true, [⟨1, 5⟩, ⟨2, 3⟩, ⟨3, 1⟩], 3⟩).1 rfl rfl
      (by decide) (by decide) (by decide)
  · exact (C1_corpus_validation ⟨true, true, [⟨1, 5⟩, ⟨2, 3⟩, ⟨4, 1⟩], 3⟩).2.1 rfl rfl
      (Or.inl (by decide)) (Or.inl (by decide))
  · exact (C1_corpus_validation ⟨true, true, [], 0⟩).2.2 rfl rfl rfl rfl

theorem bool_eq_true_of_ne_false {b : Bool} (h : b ≠ false) : b = true := by
  cases b
  · exact absurd rfl h
  · rfl

theorem seedListOk_iff (v : PyVal) :
    seedListOk v = true ↔
      ∃ xs, v = .pyList xs ∧ ∀ u ∈ xs, ∃ s, u = .pyStr s ∧ seedUrlMatch s = true := by
  cases v with
  | pyList xs =>
    simp only [seedListOk, List.all_eq_true, PyVal.pyList.injEq]
    constructor
    · intro hall
      refine ⟨xs, rfl, fun u hu => ?_⟩
      have h := hall u hu
      cases u <;> simp_all
    · rintro ⟨ys, rfl, hall⟩ u hu
      obtain ⟨s, rfl, hs⟩ := hall u hu
      simpa using hs
  | pyInt n => simp [seedListOk]
  | pyBool b => simp [seedListOk]
  | pyStr s => simp [seedListOk]
  | pyDict m => simp [seedListOk]
  | pyNone => simp [seedListOk]

theorem seedsOkP_isList {dto : ConfigDTO} (h : seedsOkP dto) : pyIsList dto.seedUrls = true := by
  obtain ⟨xs, hxs, _⟩ := h
  rw [hxs]
  rfl

theorem countCond_iff (v : PyVal) :
    (!pyIsInt v || pyIsBool v || decide (pyToInt v < 1)) = false ↔
      ∃ n : Int, v = .pyInt n ∧ 1 ≤ n := by
  cases v with
  | pyInt n =>
    simp [pyIsInt, pyIsBool, pyToInt]
    try omega
  | pyBool b => simp [pyIsInt, pyIsBool]
  | pyStr s => simp [pyIsInt]
  | pyList l => simp [pyIsInt]
  | pyDict m => simp [pyIsInt]
  | pyNone => simp [pyIsInt]

theorem timeoutCond_iff (lim : Limits) (v : PyVal) :
    (!pyIsInt v || decide (pyToInt v < lim.timeoutLowerLimit)
      || decide (lim.timeoutUpperLimit < pyToInt v)) = false ↔
      (pyIsInt v = true ∧ lim.timeoutLowerLimit ≤ pyToInt v ∧
        pyToInt v ≤ lim.timeoutUpperLimit) := by
  cases v with
  | pyInt n =>
    simp [pyIsInt, pyToInt]
    try omega
  | pyBool b =>
    cases b <;> simp [pyIsInt, pyToInt]
  | pyStr s => simp [pyIsInt]
  | pyList l => simp [pyIsInt]
  | pyDict m => simp [pyIsInt]
  | pyNone => simp [pyIsInt]

theorem pyIsDict_iff (v : PyVal) : pyIsDict v = true ↔ ∃ m, v = .pyDict m := by
  cases v <;> simp [pyIsDict]

theorem pyIsStr_iff (v : PyVal) : pyIsStr v = true ↔ ∃ s, v = .pyStr s := by
  cases v <;> simp [pyIsStr]

theorem flagsCond_iff (dto : ConfigDTO) :
    (!pyIsBool dto.shouldVerifyCertificate || !pyIsBool dto.headlessMode) = false ↔
      flagsOkP dto := by
  simp [flagsOkP]

/-- C3: Config._validate_config_content checks the fields in the fixed source
order (seed URLs, article count, count upper bound, headers, encoding,
timeout, flags) and fails fast: the returned value is the specific error of
the first violated field and nothing else; in particular a non-integer,
boolean or below-1 article count gives IncorrectNumberOfArticlesError while a
well-formed count above the upper limit gives the distinct
NumberOfArticlesOutOfRangeError, and a fully valid payload is accepted. -/
theorem C3_config_validation_order (lim : Limits) (dto : ConfigDTO) :
    (Config.validateConfigContent lim dto = .error .incorrectSeedURL ↔ ¬seedsOkP dto) ∧
    (Config.validateConfigContent lim dto = .error .incorrectNumberOfArticles ↔
      seedsOkP dto ∧ ¬countOkP dto) ∧
    (Config.validateConfigContent lim dto = .error .numberOfArticlesOutOfRange ↔
      seedsOkP dto ∧ countOkP dto ∧ ¬rangeOkP lim dto) ∧
    (Config.validateConfigContent lim dto = .error .incorrectHeaders ↔
      seedsOkP dto ∧ countOkP dto ∧ rangeOkP lim dto ∧ ¬headersOkP dto) ∧
    (Config.validateConfigContent lim dto = .error .incorrectEncoding ↔
      seedsOkP dto ∧ countOkP dto ∧ rangeOkP lim dto ∧ headersOkP dto ∧ ¬encodingOkP dto) ∧
    (Config.validateConfigContent lim dto = .error .incorrectTimeout ↔
      seedsOkP dto ∧ countOkP dto ∧ rangeOkP lim dto ∧ headersOkP dto ∧ encodingOkP dto ∧
        ¬timeoutOkP lim dto) ∧
    (Config.validateConfigContent lim dto = .error .incorrectVerify ↔
      seedsOkP dto ∧ countOkP dto ∧ rangeOkP lim dto ∧ headersOkP dto ∧ encodingOkP dto ∧
        timeoutOkP lim dto ∧ ¬flagsOkP dto) ∧
    (Config.validateConfigContent lim dto = .ok () ↔
      seedsOkP dto ∧ countOkP dto ∧ rangeOkP lim dto ∧ headersOkP dto ∧ encodingOkP dto ∧
        timeoutOkP lim dto ∧ flagsOkP dto) := by
  by_cases hs : seedsOkP dto
  case neg =>
    have hsl : seedListOk dto.seedUrls = false := by
      cases hb : seedListOk dto.seedUrls
      · rfl
      · exact absurd ((seedListOk_iff dto.seedUrls).mp hb) hs
    have hv : Config.validateConfigContent lim dto = .error .incorrectSeedURL := by
      simp [Config.validateConfigContent, hsl]
    simp only [hv]
    refine ⟨by simp [hs], ?_, ?_, ?_, ?_, ?_, ?_, ?_⟩ <;> simp <;> tauto
  case pos =>
  have hsl : seedListOk dto.seedUrls = true := (seedListOk_iff dto.seedUrls).mpr hs
  have hl : pyIsList dto.seedUrls = true := seedsOkP_isList hs
  by_cases hc : countOkP dto
  case neg =>
    have hcc : (!pyIsInt dto.totalArticles || pyIsBool dto.totalArticles
        || decide (pyToInt dto.totalArticles < 1)) = true :=
      bool_eq_true_of_ne_false (fun h => hc ((countCond_iff dto.totalArticles).mp h))
    have hv : Config.validateConfigContent lim dto = .error .incorrectNumberOfArticles := by
      simp [Config.validateConfigContent, hsl, hl, hcc]
    simp only [hv]
    refine ⟨?_, ?_, ?_, ?_, ?_, ?_, ?_, ?_⟩ <;> simp <;> tauto
  case pos =>
  have hcc : (!pyIsInt dto.totalArticles || pyIsBool dto.totalArticles
      || decide (pyToInt dto.totalArticles < 1)) = false :=
    (countCond_iff dto.totalArticles).mpr hc
  obtain ⟨n, htot, h1n⟩ := hc
  have hc' : countOkP dto := ⟨n, htot, h1n⟩
  by_cases hr : rangeOkP lim dto
  case neg =>
    have hlim : lim.numArticlesUpperLimit < n := by
      by_contra hle
      exact hr (fun m hm => by
        rw [htot] at hm
        injection hm with h
        omega)
    have hrc : decide (lim.numArticlesUpperLimit < pyToInt dto.totalArticles) = true := by
      rw [htot]
      simpa [pyToInt] using hlim
    have hv : Config.validateConfigContent lim dto = .error .numberOfArticlesOutOfRange := by
      simp [Config.validateConfigContent, hsl, hl, hcc, hrc]
    simp only [hv]
    refine ⟨?_, ?_, ?_, ?_, ?_, ?_, ?_, ?_⟩ <;> simp <;> tauto
  case pos =>
  have hrc : decide (lim.numArticlesUpperLimit < pyToInt dto.totalArticles) = false := by
    rw [htot]
    simpa [pyToInt] using hr n htot
  by_cases hh : headersOkP dto
  case neg =>
    have hhc : pyIsDict dto.headers = false := by
      cases hb : pyIsDict dto.headers
      · rfl
      · exact absurd ((pyIsDict_iff dto.headers).mp hb) hh
    have hv : Config.validateConfigContent lim dto = .error .incorrectHeaders := by
      simp [Config.validateConfigContent, hsl, hl, hcc, hrc, hhc]
    simp only [hv]
    refine ⟨?_, ?_, ?_, ?_, ?_, ?_, ?_, ?_⟩ <;> simp <;> tauto
  case pos =>
  have hhc : pyIsDict dto.headers = true := (pyIsDict_iff dto.headers).mpr hh
  by_cases he : encodingOkP dto
  case neg =>
    have hec : pyIsStr dto.encoding = false := by
      cases hb : pyIsStr dto.encoding
      · rfl
      · exact absurd ((pyIsStr_iff dto.encoding).mp hb) he
    have hv : Config.validateConfigContent lim dto = .error .incorrectEncoding := by
      simp [Config.validateConfigContent, hsl, hl, hcc, hrc, hhc, hec]
    simp only [hv]
    refine ⟨?_, ?_, ?_, ?_, ?_, ?_, ?_, ?_⟩ <;> simp <;> tauto
  case pos =>
  have hec : pyIsStr dto.encoding = true := (pyIsStr_iff dto.encoding).mpr he
  by_cases ht : timeoutOkP lim dto
  case neg =>
    have htc : (!pyIsInt dto.timeout || decide (pyToInt dto.timeout < lim.timeoutLowerLimit)
        || decide (lim.timeoutUpperLimit < pyToInt dto.timeout)) = true :=
      bool_eq_true_of_ne_false (fun h => ht ((timeoutCond_iff lim dto.timeout).mp h))
    have hv : Config.validateConfigContent lim dto = .error .incorrectTimeout := by
      simp [Config.validateConfigContent, hsl, hl, hcc, hrc, hhc, hec, htc]
    simp only [hv]
    refine ⟨?_, ?_, ?_, ?_, ?_, ?_, ?_, ?_⟩ <;> simp <;> tauto
  case pos =>
  have htc : (!pyIsInt dto.timeout || decide (pyToInt dto.timeout < lim.timeoutLowerLimit)
      || decide (lim.timeoutUpperLimit < pyToInt dto.timeout)) = false :=
    (timeoutCond_iff lim dto.timeout).mpr ht
  by_cases hf : flagsOkP dto
  case neg =>
    have hfc : (!pyIsBool dto.shouldVerifyCertificate || !pyIsBool dto.headlessMode) = true :=
      bool_eq_true_of_ne_false (fun h => hf ((flagsCond_iff dto).mp h))
    have hv : Config.validateConfigContent lim dto = .error .incorrectVerify := by
      simp [Config.validateConfigContent, hsl, hl, hcc, hrc, hhc, hec, htc, hfc]
    simp only [hv]
    refine ⟨?_, ?_, ?_, ?_, ?_, ?_, ?_, ?_⟩ <;> simp <;> tauto
  case pos =>
  have hfc : (!pyIsBool dto.shouldVerifyCertificate || !pyIsBool dto.headlessMode) = false :=
    (flagsCond_iff dto).mpr hf
  have hv : Config.validateConfigContent lim dto = .ok () := by
    simp [Config.validateConfigContent, hsl, hl, hcc, hrc, hhc, hec, htc, hfc]
  simp only [hv]
  refine ⟨?_, ?_, ?_, ?_, ?_, ?_, ?_, ?_⟩ <;> simp <;> tauto

/-- C3 witness: with bounds (150, 0, 60), a payload that is valid except for
a boolean article count is rejected with exactly the malformed-count error. -/
theorem C3_config_validation_order_witness :
    Config.validateConfigContent ⟨150, 0, 60⟩
      ⟨.pyList [.pyStr "https://krsk.sibnovosti.ru/news/"], .pyBool true, .pyDict [],
       .pyStr "utf-8", .pyInt 30, .pyBool true, .pyBool false⟩ =
      .error .incorrectNumberOfArticles :=
  (C3_config_validation_order ⟨150, 0, 60⟩
      ⟨.pyList [.pyStr "https://krsk.sibnovosti.ru/news/"], .pyBool true, .pyDict [],
       .pyStr "utf-8", .pyInt 30, .pyBool true, .pyBool false⟩).2.1.mpr
    ⟨⟨[.pyStr "https://krsk.sibnovosti.ru/news/"], rfl, by
        intro u hu
        rw [List.mem_singleton] at hu
        subst hu
        exact ⟨_, rfl, by decide⟩⟩,
      by rintro ⟨n, hn, _⟩; simp at hn⟩

theorem string_mk_eq_empty_iff (l : List Char) : (String.mk l = "") ↔ l = [] := by
  constructor
  · intro h
    have h2 := congrArg String.data h
    simpa using h2
  · rintro rfl
    rfl

theorem pyIsAlnumChar_not_ws {c : Char} (h : pyIsAlnumChar c = true) : pyIsWs c = false := by
  simp only [pyIsAlnumChar, decide_eq_true_eq] at h
  simp only [pyIsWs, decide_eq_false_iff_not]
  omega

theorem stripL_eq_self (l : List Char)
    (h1 : ∀ c, l.head? = some c → pyIsWs c = false)
    (h2 : ∀ c, l.getLast? = some c → pyIsWs c = false) :
    stripL l = l := by
  cases l with
  | nil => rfl
  | cons a as =>
    have ha : pyIsWs a = false := h1 a rfl
    have hd1 : (a :: as).dropWhile pyIsWs = a :: as := by
      rw [List.dropWhile_cons, ha]
      simp
    unfold stripL
    rw [hd1]
    cases hrev : (a :: as).reverse with
    | nil => exact absurd (List.reverse_eq_nil_iff.mp hrev) (by simp)
    | cons b bs =>
      have hb : (a :: as).getLast? = some b := by
        rw [← List.head?_reverse, hrev]
        rfl
      have hbw : pyIsWs b = false := h2 b hb
      have hd2 : (b :: bs).dropWhile pyIsWs = b :: bs := by
        rw [List.dropWhile_cons, hbw]
        simp
      rw [hd2, ← hrev, List.reverse_reverse]

theorem stripL_eq_self_of_all (l : List Char) (h : ∀ c ∈ l, pyIsWs c = false) :
    stripL l = l :=
  stripL_eq_self l
    (fun c hc => h c (List.mem_of_mem_head? (by simp [hc])))
    (fun c hc => h c (List.mem_of_getLast?_eq_some hc))

theorem pyStrip_eq_self_of_all (s : String) (h : ∀ c ∈ s.data, pyIsWs c = false) :
    pyStrip s = s := by
  cases s with
  | mk l => exact congrArg String.mk (stripL_eq_self_of_all l h)

theorem getCleaned_all_alnum (tok : ConlluToken) :
    tok.getCleaned.data.all pyIsAlnumChar = true := by
  rw [List.all_eq_true]
  intro c hc
  exact List.of_mem_filter hc

theorem pyStrip_getCleaned (tok : ConlluToken) : pyStrip tok.getCleaned = tok.getCleaned := by
  apply pyStrip_eq_self_of_all
  intro c hc
  exact pyIsAlnumChar_not_ws (List.all_eq_true.mp (getCleaned_all_alnum tok) c hc)

theorem joinSpaceL_head (p : List Char) (ps : List (List Char)) (hp : p ≠ []) :
    (joinSpaceL (p :: ps)).head? = p.head? := by
  cases ps with
  | nil => rfl
  | cons q qs =>
    show (p ++ ' ' :: joinSpaceL (q :: qs)).head? = p.head?
    cases p with
    | nil => exact absurd rfl hp
    | cons a as => rfl

theorem joinSpaceL_last (ps : List (List Char)) (h : ∀ p ∈ ps, p ≠ []) (hne : ps ≠ []) :
    ∃ q ∈ ps, (joinSpaceL ps).getLast? = q.getLast? := by
  induction ps with
  | nil => exact absurd rfl hne
  | cons p rest ih =>
    cases rest with
    | nil => exact ⟨p, by simp, rfl⟩
    | cons q qs =>
      obtain ⟨r, hr, hlast⟩ := ih (fun x hx => h x (by simp [hx])) (by simp)
      refine ⟨r, by simp [hr], ?_⟩
      show (p ++ ' ' :: joinSpaceL (q :: qs)).getLast? = r.getLast?
      have hrne : r ≠ [] := h r (by simp [hr])
      have hsome : (joinSpaceL (q :: qs)).getLast?.isSome := by
        rw [hlast]
        exact List.getLast?_isSome.mpr hrne
      obtain ⟨v, hv⟩ := Option.isSome_iff_exists.mp hsome
      have hcons : (' ' :: joinSpaceL (q :: qs)).getLast? = some v := by
        show ([' '] ++ joinSpaceL (q :: qs)).getLast? = some v
        rw [List.getLast?_append, hv]
        rfl
      rw [List.getLast?_append, hcons, ← hv, hlast]
      obtain ⟨w, hw⟩ := Option.isSome_iff_exists.mp (List.getLast?_isSome.mpr hrne)
      rw [hw]
      rfl

theorem stripL_joinSpaceL (ps : List (List Char))
    (h : ∀ p ∈ ps, p ≠ [] ∧ ∀ c ∈ p, pyIsWs c = false) :
    stripL (joinSpaceL ps) = joinSpaceL ps := by
  cases hps : ps with
  | nil => rfl
  | cons p rest =>
    apply stripL_eq_self
    · intro c hc
      rw [joinSpaceL_head p rest (h p (by simp [hps])).1] at hc
      exact (h p (by simp [hps])).2 c (List.mem_of_mem_head? (by simp [hc]))
    · intro c hc
      obtain ⟨q, hq, hlast⟩ :=
        joinSpaceL_last (p :: rest) (fun x hx => (h x (hps ▸ hx)).1) (by simp)
      rw [hlast] at hc
      exact (h q (hps ▸ hq)).2 c (List.mem_of_getLast?_eq_some hc)

theorem pyStrip_joinSpace (parts : List String)
    (h : ∀ p ∈ parts, p ≠ "" ∧ p.data.all pyIsAlnumChar = true) :
    pyStrip (joinSpace parts) = joinSpace parts := by
  show String.mk (stripL (joinSpaceL (parts.map String.data))) = _
  refine congrArg String.mk (stripL_joinSpaceL _ ?_)
  intro pl hpl
  rw [List.mem_map] at hpl
  obtain ⟨p, hp, rfl⟩ := hpl
  refine ⟨?_, ?_⟩
  · intro hnil
    exact (h p hp).1 (by cases p with | mk l => simp_all)
  · intro c hc
    exact pyIsAlnumChar_not_ws (List.all_eq_true.mp (h p hp).2 c hc)

theorem filter_map_cleaned (toks : List ConlluToken) :
    ((toks.filter (fun tok => tok.getCleaned ≠ "")).map ConlluToken.getCleaned).filter
        (fun c => c ≠ "")
      = (toks.map ConlluToken.getCleaned).filter (fun c => c ≠ "") := by
  induction toks with
  | nil => rfl
  | cons t ts ih =>
    by_cases h : t.getCleaned = ""
    · have hb : (decide (t.getCleaned ≠ "")) = false := by simp [h]
      simp only [List.filter_cons, List.map_cons, hb, Bool.false_eq_true, if_false, ih]
    · have hb : (decide (t.getCleaned ≠ "")) = true := by simp [h]
      simp only [List.filter_cons, List.map_cons, hb, if_true, ih]

theorem cleanedSentence_eq_joinSpace (toks : List ConlluToken) :
    pyStrip (joinSpace ((toks.map (fun tok => pyStrip tok.getCleaned)).filter
        (fun c => 0 < c.length)))
      = joinSpace ((toks.map ConlluToken.getCleaned).filter (fun c => c ≠ "")) := by
  have hmap : toks.map (fun tok => pyStrip tok.getCleaned) = toks.map ConlluToken.getCleaned :=
    List.map_congr_left (fun tok _ => pyStrip_getCleaned tok)
  rw [hmap]
  have hfil : (toks.map ConlluToken.getCleaned).filter (fun c => decide (0 < c.length))
      = (toks.map ConlluToken.getCleaned).filter (fun c => decide (c ≠ "")) := by
    apply List.filter_congr
    intro c _
    cases c with
    | mk l => cases l <;> simp [String.length, string_mk_eq_empty_iff]
  rw [hfil]
  apply pyStrip_joinSpace
  intro p hp
  rw [List.mem_filter] at hp
  obtain ⟨hpmem, hpne⟩ := hp
  rw [List.mem_map] at hpmem
  obtain ⟨tok, _, rfl⟩ := hpmem
  exact ⟨by simpa using hpne, getCleaned_all_alnum tok⟩

/-- C9: get_cleaned lowercases and keeps alphanumerics only, so
cleaned("Привет!") is "привет" and cleaned("...") is empty; the cleaned
sentence projection equals the space-join of the non-empty cleaned token
forms (the outer and inner strips of the source are no-ops on
alphanumeric-only strings), and dropping the punctuation-only tokens (the
ones whose cleaned form is empty) from a sentence leaves its cleaned
projection unchanged. -/
theorem C9_cleaned_tokens :
    ConlluToken.getCleaned ⟨"Привет!"⟩ = "привет" ∧
    ConlluToken.getCleaned ⟨"..."⟩ = "" ∧
    (∀ s : ConlluSentence,
      s.getCleanedSentence =
        joinSpace ((s.getTokens.map ConlluToken.getCleaned).filter (fun c => c ≠ ""))) ∧
    (∀ (pos : Nat) (text : String) (toks : List ConlluToken),
      ConlluSentence.getCleanedSentence
          ⟨pos, text, toks.filter (fun tok => tok.getCleaned ≠ "")⟩ =
        ConlluSentence.getCleanedSentence ⟨pos, text, toks⟩) := by
  refine ⟨by decide, by decide, ?_, ?_⟩
  · intro s
    exact cleanedSentence_eq_joinSpace s.tokens
  · intro pos text toks
    show pyStrip (joinSpace _) = pyStrip (joinSpace _)
    rw [cleanedSentence_eq_joinSpace, cleanedSentence_eq_joinSpace]
    simp only [ConlluSentence.getTokens]
    rw [filter_map_cleaned]

theorem bool_eq_false_of_ne_true {b : Bool} (h : ¬b = true) : b = false := by
  cases b
  · rfl
  · exact absurd rfl h

theorem dateStep_foldl (l : List String) (acc : String × String × String) :
    l.foldl dateStep acc =
      (acc.1 ++ foldAdds timeAdd l, acc.2.1 ++ foldAdds monthAdd l,
        acc.2.2 ++ foldAdds dayAdd l) := by
  induction l generalizing acc with
  | nil => simp [foldAdds, string_append_empty]
  | cons e es ih =>
    rw [List.foldl_cons, ih]
    simp only [dateStep, foldAdds]
    rw [string_append_assoc, string_append_assoc, string_append_assoc]

theorem dateParts_eq (s : String) :
    dateParts s = (foldAdds timeAdd (pyTokens (pyLower s)),
      foldAdds monthAdd (pyTokens (pyLower s)), foldAdds dayAdd (pyTokens (pyLower s))) := by
  unfold dateParts
  rw [dateStep_foldl]
  rfl

theorem foldAdds_eq_empty (f : String → String) (l : List String)
    (h : ∀ e ∈ l, f e = "") : foldAdds f l = "" := by
  induction l with
  | nil => rfl
  | cons e es ih =>
    show f e ++ foldAdds f es = ""
    rw [h e (by simp), ih (fun x hx => h x (by simp [hx]))]
    rfl

theorem monthAdd_digits (e : String) : (monthAdd e).data.all isDigitChar = true := by
  unfold monthAdd
  cases hm : monthsLookup e with
  | none => rfl
  | some m =>
    unfold monthsLookup at hm
    obtain ⟨p, hfind, hsnd⟩ := Option.map_eq_some'.mp hm
    have hmem : p ∈ monthsCollection := List.mem_of_find?_eq_some hfind
    have hall : ∀ q ∈ monthsCollection, q.2.data.all isDigitChar = true := by decide
    rw [← hsnd]
    exact hall p hmem

theorem dayAdd_digits (e : String) : (dayAdd e).data.all isDigitChar = true := by
  unfold dayAdd
  split
  case isTrue h =>
    simp only [Bool.and_eq_true, pyIsDigitStr] at h
    have hall := h.1.2
    show (('0' :: e.data).all isDigitChar) = true
    rw [List.all_cons, hall]
    decide
  case isFalse h =>
    split
    case isTrue h2 =>
      simp only [Bool.and_eq_true, pyIsDigitStr] at h2
      exact h2.1.2
    case isFalse h2 => rfl

theorem foldAdds_digits (f : String → String) (l : List String)
    (h : ∀ e ∈ l, (f e).data.all isDigitChar = true) :
    (foldAdds f l).data.all isDigitChar = true := by
  induction l with
  | nil => rfl
  | cons e es ih =>
    show ((f e ++ foldAdds f es).data.all isDigitChar) = true
    rw [string_data_append, List.all_append, h e (by simp),
      ih (fun x hx => h x (by simp [hx]))]
    rfl

theorem sliceTwo_digits (s : String) (h : s.data.all isDigitChar = true) :
    (sliceTwo s).data.all isDigitChar = true := by
  rw [List.all_eq_true] at h ⊢
  intro c hc
  exact h c (List.take_subset 2 s.data hc)

theorem digitSpan_nondigit (c : Char) (cs : List Char) (h : isDigitChar c = false) :
    digitSpan (c :: cs) = ([], c :: cs) := by
  simp [digitSpan, h]

theorem digitSpan_append (xs ys : List Char) (hx : xs.all isDigitChar = true) :
    digitSpan (xs ++ ys) = (xs ++ (digitSpan ys).1, (digitSpan ys).2) := by
  induction xs with
  | nil => simp
  | cons c cs ih =>
    rw [List.all_cons, Bool.and_eq_true] at hx
    rw [List.cons_append]
    show digitSpan (c :: (cs ++ ys)) = _
    rw [digitSpan, if_pos hx.1, ih hx.2]
    rfl

theorem parseYmdHM_2023 (rest : List Char) :
    parseYmdHM ('2' :: '0' :: '2' :: '3' :: '-' :: rest) = parseAfterYear 2023 rest := by
  rfl

theorem correctDate_data (m d t : String) :
    ("2023" ++ "-" ++ m ++ "-" ++ d ++ " " ++ t).data =
      '2' :: '0' :: '2' :: '3' :: '-' :: (m.data ++ '-' :: (d.data ++ ' ' :: t.data)) := by
  have h2023 : ("2023" : String).data = ['2', '0', '2', '3'] := rfl
  have hdash : ("-" : String).data = ['-'] := rfl
  have hsp : (" " : String).data = [' '] := rfl
  simp [string_data_append, h2023, hdash, hsp]

theorem strptime_assembled (m d t : String) :
    strptimeYmdHM ("2023" ++ "-" ++ m ++ "-" ++ d ++ " " ++ t) =
      parseAfterYear 2023 (m.data ++ '-' :: (d.data ++ ' ' :: t.data)) := by
  unfold strptimeYmdHM
  rw [correctDate_data, parseYmdHM_2023]

theorem parseAfterYear_noMonth (rest : List Char) :
    parseAfterYear 2023 ('-' :: rest) = none := by
  simp only [parseAfterYear]
  rw [digitSpan_nondigit '-' rest (by decide)]
  rfl

theorem parseAfterYear_noTime (m d : List Char)
    (hm : m.all isDigitChar = true) (hd : d.all isDigitChar = true) :
    parseAfterYear 2023 (m ++ '-' :: (d ++ [' '])) = none := by
  simp only [parseAfterYear]
  rw [digitSpan_append m ('-' :: (d ++ [' '])) hm,
    digitSpan_nondigit '-' (d ++ [' ']) (by decide)]
  dsimp only
  simp only [List.append_nil]
  cases hmv : monthVal m with
  | none => rfl
  | some mo =>
    rw [digitSpan_append d [' '] hd, digitSpan_nondigit ' ' [] (by decide)]
    dsimp only
    simp only [List.append_nil]
    cases hdv : dayVal d with
    | none => rfl
    | some dv => rfl

theorem parseAfterYear_noDay (m t : List Char) (hm : m.all isDigitChar = true) :
    parseAfterYear 2023 (m ++ '-' :: ' ' :: t) = none := by
  simp only [parseAfterYear]
  rw [digitSpan_append m ('-' :: ' ' :: t) hm,
    digitSpan_nondigit '-' (' ' :: t) (by decide)]
  dsimp only
  simp only [List.append_nil]
  cases hmv : monthVal m with
  | none => rfl
  | some mo =>
    rw [digitSpan_nondigit ' ' t (by decide)]
    rfl

theorem singleDigits_isDigit (tok : String) (h : singleDigits.contains tok = true) :
    pyIsDigitStr tok = true := by
  have hmem : tok ∈ singleDigits := by simpa using h
  fin_cases hmem <;> decide

theorem foldAdds_dayAdd_single (l : List String) (tok : String)
    (h : l.filter (fun e => pyIsDigitStr e) = [tok]) :
    foldAdds dayAdd l = dayAdd tok := by
  induction l with
  | nil => simp at h
  | cons e es ih =>
    rw [List.filter_cons] at h
    by_cases hd : pyIsDigitStr e = true
    · rw [if_pos hd] at h
      rw [List.cons.injEq] at h
      obtain ⟨rfl, hes⟩ := h
      have hz : foldAdds dayAdd es = "" := by
        apply foldAdds_eq_empty
        intro x hx
        have hnd : pyIsDigitStr x = false := by
          have := List.filter_eq_nil_iff.mp hes x hx
          exact bool_eq_false_of_ne_true this
        simp [dayAdd, hnd]
      show dayAdd e ++ foldAdds dayAdd es = dayAdd e
      rw [hz, string_append_empty]
    · rw [if_neg hd] at h
      have he0 : dayAdd e = "" := by
        simp [dayAdd, bool_eq_false_of_ne_true hd]
      show dayAdd e ++ foldAdds dayAdd es = dayAdd tok
      rw [he0, string_empty_append]
      exact ih h

/-- C4: unify_date_format("14:30 5 марта") parses to the timestamp
2023-03-05 14:30 (month 03, day 05, hour 14, minute 30); and whenever the
numeric tokens of the input are exactly one single-digit day token 1-9, the
assembled day field day[:2] is the zero-padded two-character form "0" +
digit. -/
theorem C4_unify_date_format :
    HTMLParser.unifyDateFormat "14:30 5 марта" = some ⟨2023, 3, 5, 14, 30⟩ ∧
    ∀ (s tok : String),
      (pyTokens (pyLower s)).filter (fun e => pyIsDigitStr e) = [tok] →
      singleDigits.contains tok = true →
      sliceTwo (dateParts s).2.2 = "0" ++ tok ∧
        (sliceTwo (dateParts s).2.2).length = 2 := by
  refine ⟨by decide, ?_⟩
  intro s tok hfil hsingle
  have hmem : tok ∈ singleDigits := by simpa using hsingle
  have hday : (dateParts s).2.2 = dayAdd tok := by
    rw [dateParts_eq]
    exact foldAdds_dayAdd_single _ tok hfil
  have hval : dayAdd tok = "0" ++ tok := by
    unfold dayAdd
    rw [singleDigits_isDigit tok hsingle, hsingle]
    rfl
  rw [hday, hval]
  fin_cases hmem <;> exact ⟨by decide, by decide⟩

/-- C4 witness: at the concrete input the numeric tokens are exactly ["5"]
and the assembled day field is the two-character "05". -/
theorem C4_unify_date_format_witness :
    HTMLParser.unifyDateFormat "14:30 5 марта" = some ⟨2023, 3, 5, 14, 30⟩ ∧
    sliceTwo (dateParts "14:30 5 марта").2.2 = "0" ++ "5" ∧
    (sliceTwo (dateParts "14:30 5 марта").2.2).length = 2 :=
  ⟨C4_unify_date_format.1,
   (C4_unify_date_format.2 "14:30 5 марта" "5" (by decide) (by decide)).1,
   (C4_unify_date_format.2 "14:30 5 марта" "5" (by decide) (by decide)).2⟩

/-- C5: a malformed date string fails the strict parse instead of producing a
timestamp: if no token is a month name, the month field is empty and the
parse fails; if no token carries a colon, the time field is empty and the
parse runs out of input at the hour; if no token is numeric, the day field is
empty and the parse fails at the day.  No placeholder or partial date is ever
returned. -/
theorem C5_unify_date_malformed (s : String) :
    ((pyTokens (pyLower s)).all (fun tok => (monthsLookup tok).isNone) = true ∨
     (pyTokens (pyLower s)).all (fun tok => !pyContains tok ':') = true ∨
     (pyTokens (pyLower s)).all (fun tok => !pyIsDigitStr tok) = true) →
    HTMLParser.unifyDateFormat s = none := by
  intro h
  show strptimeYmdHM ("2023" ++ "-" ++ (dateParts s).2.1 ++ "-" ++
    sliceTwo (dateParts s).2.2 ++ " " ++ (dateParts s).1) = none
  have hmdig : ((dateParts s).2.1).data.all isDigitChar = true := by
    rw [dateParts_eq]
    exact foldAdds_digits monthAdd _ (fun e _ => monthAdd_digits e)
  rcases h with hm | ht | hd
  · have hm0 : (dateParts s).2.1 = "" := by
      rw [dateParts_eq]
      apply foldAdds_eq_empty
      intro e he
      have := List.all_eq_true.mp hm e he
      simp [monthAdd, Option.isNone_iff_eq_none.mp this]
    rw [hm0, strptime_assembled]
    exact parseAfterYear_noMonth _
  · have ht0 : (dateParts s).1 = "" := by
      rw [dateParts_eq]
      apply foldAdds_eq_empty
      intro e he
      have := List.all_eq_true.mp ht e he
      simp only [Bool.not_eq_true'] at this
      simp [timeAdd, this]
    have hddig : (sliceTwo (dateParts s).2.2).data.all isDigitChar = true := by
      apply sliceTwo_digits
      rw [dateParts_eq]
      exact foldAdds_digits dayAdd _ (fun e _ => dayAdd_digits e)
    rw [ht0, strptime_assembled]
    exact parseAfterYear_noTime _ _ hmdig hddig
  · have hd0 : (dateParts s).2.2 = "" := by
      rw [dateParts_eq]
      apply foldAdds_eq_empty
      intro e he
      have := List.all_eq_true.mp hd e he
      simp only [Bool.not_eq_true'] at this
      simp [dayAdd, this]
    rw [hd0, strptime_assembled]
    exact parseAfterYear_noDay _ _ hmdig

/-- C5 witness: "14:30 5" has no month token and fails; "5 марта" has no
time token and fails; "14:30 марта" has no numeric day token and fails. -/
theorem C5_unify_date_malformed_witness :
    HTMLParser.unifyDateFormat "14:30 5" = none ∧
    HTMLParser.unifyDateFormat "5 марта" = none ∧
    HTMLParser.unifyDateFormat "14:30 марта" = none :=
  ⟨C5_unify_date_malformed "14:30 5" (Or.inl (by decide)),
   C5_unify_date_malformed "5 марта" (Or.inr (Or.inl (by decide))),
   C5_unify_date_malformed "14:30 марта" (Or.inr (Or.inr (by decide)))⟩
